import Mathlib

/-!
Verification of the metrics aggregation and filtering engine of the
sales-performance dashboard (`useSalesData`: `calculateMetrics`,
`filteredData`, `summary`).

Modelling choices:
* JavaScript numbers are modelled exactly (rationals) together with the
  special values `NaN` and signed infinity, so that the coercion
  `Number(x)` and the propagation of `NaN` through sums, comparisons and
  divisions follow ECMAScript semantics.  IEEE rounding and overflow of
  finite values are not modelled.
* A raw record field that should be numeric is modelled by `Val`: a
  finite number (also covering numeric strings), JavaScript `null`
  (which `Number` coerces to `0`), or a missing / non-numeric value
  (which `Number` coerces to `NaN`).
* Record dates carry `Option String`; `none` models a missing (`null` /
  `undefined`) date.  Date strings follow the data model's ISO
  `YYYY-MM-DD` semantics: `parseYMD` accepts exactly the valid calendar
  dates in that format and rejects everything else (modelling
  `parseISO` returning an Invalid Date, whose time value is `NaN`).
  Times are modelled at day granularity (days since 1970-01-01).
* `isWithinInterval` follows date-fns v3 semantics: the two interval
  bounds are sorted, and a `NaN` time compares false.
* The fixed branch and channel enumerations (`BRANCHES`, `CHANNELS`)
  are parameters of the definitions; every theorem quantifies over
  them, so it holds for any concrete enumeration constants.
-/

namespace SalesDashboard

/-- A JavaScript number: a finite value (modelled exactly as a
rational), a signed infinity, or `NaN`. -/
inductive JsNum where
  | num (q : ℚ)
  | inf (pos : Bool)
  | nan
deriving DecidableEq, Repr

/-- JavaScript `+` on numbers. -/
def JsNum.add : JsNum → JsNum → JsNum
  | nan, _ => nan
  | _, nan => nan
  | num a, num b => num (a + b)
  | num _, inf s => inf s
  | inf s, num _ => inf s
  | inf s, inf t => if s = t then inf s else nan

/-- JavaScript `*` on numbers. -/
def JsNum.mul : JsNum → JsNum → JsNum
  | nan, _ => nan
  | _, nan => nan
  | num a, num b => num (a * b)
  | num a, inf s => if a = 0 then nan else inf (s = decide (0 < a))
  | inf s, num a => if a = 0 then nan else inf (s = decide (0 < a))
  | inf s, inf t => inf (s = t)

/-- JavaScript `/` on numbers. -/
def JsNum.div : JsNum → JsNum → JsNum
  | nan, _ => nan
  | _, nan => nan
  | num a, num b =>
      if b = 0 then (if a = 0 then nan else inf (decide (0 < a)))
      else num (a / b)
  | num _, inf _ => num 0
  | inf s, num b => inf (s = decide (0 ≤ b))
  | inf _, inf _ => nan

/-- JavaScript `>` on numbers (`NaN` compares false). -/
def JsNum.gt : JsNum → JsNum → Bool
  | nan, _ => false
  | _, nan => false
  | num a, num b => decide (b < a)
  | num _, inf s => !s
  | inf s, num _ => s
  | inf s, inf t => s && !t

/-- `true` exactly for a finite number (not `NaN`, not infinite). -/
def JsNum.isFinite : JsNum → Bool
  | num _ => true
  | _ => false

/-- A raw value in a numeric field of a fetched record, before the
`Number(...)` coercion applied by `calculateMetrics`. -/
inductive Val where
  | vNum (q : ℚ)
  | vNull
  | vBad
deriving DecidableEq, Repr

/-- ECMAScript `Number(x)`: a number (or numeric string) yields its
value, `null` yields `0`, a missing (`undefined`) or non-numeric value
yields `NaN`. -/
def Val.toNumber : Val → JsNum
  | vNum q => .num q
  | vNull => .num 0
  | vBad => .nan

/-- `true` when the field value coerces to a finite number. -/
def Val.good : Val → Bool
  | .vBad => false
  | _ => true

/-- `records.reduce((sum, d) => sum + f(d), 0)` in JavaScript number
arithmetic. -/
def jsumBy {α : Type} (f : α → JsNum) (l : List α) : JsNum :=
  l.foldl (fun s d => s.add (f d)) (JsNum.num 0)

/-- One raw sales observation (the fields `calculateMetrics` and
`filteredData` read). -/
structure SalesRecord where
  date : Option String
  branch_name : String
  channel_name : String
  sales_value : Val
  orders_count : Val
  target_value : Val
deriving DecidableEq, Repr

/-- Number of days in a month of the (proleptic) Gregorian calendar. -/
def daysInMonth (y m : Nat) : Nat :=
  if m = 2 then
    if y % 4 = 0 && (y % 100 ≠ 0 || y % 400 = 0) then 29 else 28
  else if m = 4 || m = 6 || m = 9 || m = 11 then 30
  else 31

/-- Parse a string of the exact shape `YYYY-MM-DD` denoting a valid
calendar date; anything else is unparsable. -/
def parseYMD (s : String) : Option (Nat × Nat × Nat) :=
  match s.toList with
  | [c1, c2, c3, c4, h1, c5, c6, h2, c7, c8] =>
    if c1.isDigit && c2.isDigit && c3.isDigit && c4.isDigit && h1 = '-' &&
       c5.isDigit && c6.isDigit && h2 = '-' && c7.isDigit && c8.isDigit then
      let dv : Char → Nat := fun c => c.toNat - '0'.toNat
      let y := dv c1 * 1000 + dv c2 * 100 + dv c3 * 10 + dv c4
      let m := dv c5 * 10 + dv c6
      let d := dv c7 * 10 + dv c8
      if 1 ≤ m && m ≤ 12 && 1 ≤ d && d ≤ daysInMonth y m then
        some (y, m, d)
      else none
    else none
  | _ => none

/-- Days since 1970-01-01 of a Gregorian date (civil-days algorithm). -/
def daysFromCivil (y m d : Nat) : Int :=
  let yy : Int := if m ≤ 2 then (y : Int) - 1 else (y : Int)
  let era : Int := (if 0 ≤ yy then yy else yy - 399) / 400
  let yoe : Int := yy - era * 400
  let doy : Int := (153 * (((m : Int) + 9) % 12) + 2) / 5 + (d : Int) - 1
  let doe : Int := yoe * 365 + yoe / 4 - yoe / 100 + doy
  era * 146097 + doe - 719468

/-- `parseISO(s).getTime()` at day granularity: `none` models the `NaN`
time value of an Invalid Date. -/
def recordTime (s : String) : Option Int :=
  (parseYMD s).map (fun t => daysFromCivil t.1 t.2.1 t.2.2)

/-- `getDay`: day of week, 0 = Sunday, of a day count since the epoch
(1970-01-01 was a Thursday). -/
def getDayOfWeek (t : Int) : Int :=
  (t + 4).emod 7

/-- date-fns v3 `isWithinInterval`: the bounds are sorted and an
invalid (`NaN`) time compares false. -/
def isWithinInterval (time : Option Int) (start stop : Int) : Bool :=
  match time with
  | none => false
  | some t => decide (min start stop ≤ t) && decide (t ≤ max start stop)

/-- The react-day-picker `DateRange`: both endpoints optional. -/
structure FilterDateRange where
  dFrom : Option Int
  dTo : Option Int
deriving DecidableEq, Repr

/-- The `DashboardFilterState` of `useSalesData`. -/
structure DashboardFilterState where
  dateRange : Option FilterDateRange
  selectedMonth : Option String
  branches : List String
  channels : List String
  daysOfWeek : List Int
deriving DecidableEq, Repr

/-- The date-range block of the filter: active only when
`filters.dateRange?.from` is truthy; `to || from` supplies the end. -/
def dateRangePass (filters : DashboardFilterState) (ds : String) : Bool :=
  match filters.dateRange with
  | none => true
  | some dr =>
    match dr.dFrom with
    | none => true
    | some start => isWithinInterval (recordTime ds) start (dr.dTo.getD start)

/-- JavaScript `s.startsWith(p)`: `p`'s character sequence is a prefix
of `s`'s. -/
def strStartsWith (s p : String) : Bool :=
  p.toList.isPrefixOf s.toList

/-- The selected-month block: active when `filters.selectedMonth` is a
truthy (non-empty) string; tests the `YYYY-MM` prefix of the raw date
string. -/
def monthPass (filters : DashboardFilterState) (ds : String) : Bool :=
  match filters.selectedMonth with
  | none => true
  | some m => if m.isEmpty then true else strStartsWith ds m

/-- The branch block: a non-empty branch list requires membership. -/
def branchPass (filters : DashboardFilterState) (r : SalesRecord) : Bool :=
  if filters.branches.length > 0 then filters.branches.contains r.branch_name
  else true

/-- The channel block: a non-empty channel list requires membership. -/
def channelPass (filters : DashboardFilterState) (r : SalesRecord) : Bool :=
  if filters.channels.length > 0 then filters.channels.contains r.channel_name
  else true

/-- The day-of-week block: `getDay` of an Invalid Date is `NaN`, and
`includes` over the integer day list rejects it. -/
def dowPass (filters : DashboardFilterState) (ds : String) : Bool :=
  if filters.daysOfWeek.length > 0 then
    match recordTime ds with
    | none => false
    | some t => filters.daysOfWeek.contains (getDayOfWeek t)
  else true

/-- The predicate of the `filteredData` memo: a record with a falsy
(`null` / `undefined` / empty) date is rejected outright, then each
active filter block must pass. -/
def filterPred (filters : DashboardFilterState) (r : SalesRecord) : Bool :=
  match r.date with
  | none => false
  | some ds =>
    if ds.isEmpty then false
    else
      dateRangePass filters ds && monthPass filters ds &&
      branchPass filters r && channelPass filters r && dowPass filters ds

/-- `filteredData`: `salesData.filter(record => ...)`. -/
def filteredData (salesData : List SalesRecord)
    (filters : DashboardFilterState) : List SalesRecord :=
  salesData.filter (filterPred filters)

/-- Per-channel derived metrics. -/
structure ChannelMetrics where
  channelName : String
  sales : JsNum
  orders : JsNum
  target : JsNum
  achievementPercentage : JsNum
  aov : JsNum
deriving DecidableEq, Repr

/-- Per-branch derived metrics. -/
structure BranchMetrics where
  branchName : String
  totalSales : JsNum
  totalOrders : JsNum
  totalTarget : JsNum
  achievementPercentage : JsNum
  aov : JsNum
  channels : List ChannelMetrics
deriving DecidableEq, Repr

/-- The root aggregate. -/
structure DashboardSummary where
  totalSales : JsNum
  totalOrders : JsNum
  totalTarget : JsNum
  overallAchievement : JsNum
  overallAov : JsNum
  branchMetrics : List BranchMetrics
deriving DecidableEq, Repr

/-- The inner `CHANNELS.map` body of `calculateMetrics`: metrics of one
channel within an already branch-restricted record list. -/
def channelMetricsOf (branchData : List SalesRecord) (channel : String) :
    ChannelMetrics :=
  let channelData := branchData.filter (fun d => d.channel_name == channel)
  let sales := jsumBy (fun d => d.sales_value.toNumber) channelData
  let orders := jsumBy (fun d => d.orders_count.toNumber) channelData
  let target := jsumBy (fun d => d.target_value.toNumber) channelData
  { channelName := channel
    sales := sales
    orders := orders
    target := target
    achievementPercentage :=
      if target.gt (.num 0) then (sales.div target).mul (.num 100)
      else .num 0
    aov := if orders.gt (.num 0) then sales.div orders else .num 0 }

/-- The `BRANCHES.map` body of `calculateMetrics`: metrics of one
branch, with `totalTarget = targetsMap[branch] ?? Σ channel targets`. -/
def branchMetricsOf (CHANNELS : List String) (data : List SalesRecord)
    (targetsMap : String → Option ℚ) (branch : String) : BranchMetrics :=
  let branchData := data.filter (fun d => d.branch_name == branch)
  let channels : List ChannelMetrics := CHANNELS.map (channelMetricsOf branchData)
  let totalSales := jsumBy (fun c => c.sales) channels
  let totalOrders := jsumBy (fun c => c.orders) channels
  let totalTarget :=
    match targetsMap branch with
    | some v => JsNum.num v
    | none => jsumBy (fun c => c.target) channels
  { branchName := branch
    totalSales := totalSales
    totalOrders := totalOrders
    totalTarget := totalTarget
    achievementPercentage :=
      if totalTarget.gt (.num 0) then
        (totalSales.div totalTarget).mul (.num 100)
      else .num 0
    aov := if totalOrders.gt (.num 0) then totalSales.div totalOrders
           else .num 0
    channels := channels }

/-- `calculateMetrics(data, targetsMap)`: folds the (already filtered)
records into the three-level summary, iterating the fixed `BRANCHES`
and `CHANNELS` enumerations.  `targetsMap` is the sparse per-branch
override mapping (`targetsMap[branch] ?? fallback`). -/
def calculateMetrics (BRANCHES CHANNELS : List String)
    (data : List SalesRecord) (targetsMap : String → Option ℚ) :
    DashboardSummary :=
  let branchMetrics : List BranchMetrics :=
    BRANCHES.map (branchMetricsOf CHANNELS data targetsMap)
  let totalSales := jsumBy (fun b => b.totalSales) branchMetrics
  let totalOrders := jsumBy (fun b => b.totalOrders) branchMetrics
  let totalTarget := jsumBy (fun b => b.totalTarget) branchMetrics
  { totalSales := totalSales
    totalOrders := totalOrders
    totalTarget := totalTarget
    overallAchievement :=
      if totalTarget.gt (.num 0) then
        (totalSales.div totalTarget).mul (.num 100)
      else .num 0
    overallAov :=
      if totalOrders.gt (.num 0) then totalSales.div totalOrders
      else .num 0
    branchMetrics := branchMetrics }

/-- The `summary` memo: `null` when the raw collection is empty,
otherwise the aggregation of the filtered data. -/
def summary (BRANCHES CHANNELS : List String) (salesData : List SalesRecord)
    (filters : DashboardFilterState) (targetsMap : String → Option ℚ) :
    Option DashboardSummary :=
  if salesData.length = 0 then none
  else some (calculateMetrics BRANCHES CHANNELS
    (filteredData salesData filters) targetsMap)

/-- All numeric fields of a channel's metrics are finite (no `NaN`, no
infinity). -/
def ChannelMetrics.allFinite (c : ChannelMetrics) : Bool :=
  c.sales.isFinite && c.orders.isFinite && c.target.isFinite &&
  c.achievementPercentage.isFinite && c.aov.isFinite

/-- All numeric fields of a branch's metrics, channels included, are
finite. -/
def BranchMetrics.allFinite (b : BranchMetrics) : Bool :=
  b.totalSales.isFinite && b.totalOrders.isFinite &&
  b.totalTarget.isFinite && b.achievementPercentage.isFinite &&
  b.aov.isFinite && b.channels.all ChannelMetrics.allFinite

/-- All numeric fields of the whole summary are finite: no `NaN` or
`Infinity` anywhere in the output. -/
def DashboardSummary.allFinite (s : DashboardSummary) : Bool :=
  s.totalSales.isFinite && s.totalOrders.isFinite &&
  s.totalTarget.isFinite && s.overallAchievement.isFinite &&
  s.overallAov.isFinite && s.branchMetrics.all BranchMetrics.allFinite

/-- The filter state with every field inactive. -/
def emptyFilters : DashboardFilterState :=
  { dateRange := none, selectedMonth := none, branches := [],
    channels := [], daysOfWeek := [] }

/-- First record of the specification's walk-through scenario. -/
def recA_X : SalesRecord :=
  { date := some "2024-03-01", branch_name := "A", channel_name := "X",
    sales_value := .vNum 100, orders_count := .vNum 2,
    target_value := .vNum 50 }

/-- Second record of the specification's walk-through scenario. -/
def recA_Y : SalesRecord :=
  { date := some "2024-03-02", branch_name := "A", channel_name := "Y",
    sales_value := .vNum 50, orders_count := .vNum 1,
    target_value := .vNum 0 }

/-- A record whose `sales_value` is missing / non-numeric. -/
def recBadSales : SalesRecord :=
  { date := some "2024-03-01", branch_name := "A", channel_name := "X",
    sales_value := .vBad, orders_count := .vNum 1,
    target_value := .vNum 1 }

/-- A record whose date string is non-empty but unparsable. -/
def recBadDate : SalesRecord :=
  { date := some "bad-date", branch_name := "A", channel_name := "X",
    sales_value := .vNum 1, orders_count := .vNum 1,
    target_value := .vNum 1 }

/-- An override mapping assigning branch `A` the target `1000`. -/
def overrideA : String → Option ℚ :=
  fun b => if b = "A" then some 1000 else none

/-- The empty override mapping. -/
def noOverrides : String → Option ℚ := fun _ => none

lemma JsNum.isFinite_add {a b : JsNum} (ha : a.isFinite) (hb : b.isFinite) :
    (a.add b).isFinite := by
  cases a <;> cases b <;> simp_all [JsNum.add, JsNum.isFinite]

lemma jsumBy_isFinite {α : Type} {f : α → JsNum} {l : List α}
    (h : ∀ a ∈ l, (f a).isFinite) : (jsumBy f l).isFinite := by
  have aux : ∀ (l : List α) (init : JsNum), init.isFinite →
      (∀ a ∈ l, (f a).isFinite) →
      (l.foldl (fun s d => s.add (f d)) init).isFinite := by
    intro l
    induction l with
    | nil => intro init h1 _; exact h1
    | cons x xs ih =>
      intro init h1 h2
      simp only [List.foldl_cons]
      exact ih _ (JsNum.isFinite_add h1 (h2 x (by simp)))
        (fun a ha => h2 a (by simp [ha]))
  exact aux l (.num 0) rfl h

lemma jsumBy_eq_zero {α : Type} {f : α → JsNum} {l : List α}
    (h : ∀ a ∈ l, f a = .num 0) : jsumBy f l = .num 0 := by
  have aux : ∀ (l : List α) (q : ℚ), (∀ a ∈ l, f a = .num 0) →
      (l.foldl (fun s d => JsNum.add s (f d)) (JsNum.num q)) = JsNum.num q := by
    intro l
    induction l with
    | nil => intro q _; rfl
    | cons x xs ih =>
      intro q h2
      simp only [List.foldl_cons, h2 x (by simp), JsNum.add]
      rw [show q + 0 = q by ring]
      exact ih q (fun a ha => h2 a (by simp [ha]))
  exact aux l 0 h

lemma achievement_isFinite {s t : JsNum} (hs : s.isFinite)
    (ht : t.isFinite) :
    (if t.gt (.num 0) then (s.div t).mul (.num 100) else .num 0).isFinite := by
  cases t with
  | num q =>
    cases s with
    | num a =>
      by_cases h0 : (0 : ℚ) < q
      · have hq : q ≠ 0 := ne_of_gt h0
        simp [JsNum.gt, h0, JsNum.div, hq, JsNum.mul, JsNum.isFinite]
      · simp [JsNum.gt, h0, JsNum.isFinite]
    | inf s => simp [JsNum.isFinite] at hs
    | nan => simp [JsNum.isFinite] at hs
  | inf s => simp [JsNum.isFinite] at ht
  | nan => simp [JsNum.isFinite] at ht

lemma aov_isFinite {s o : JsNum} (hs : s.isFinite) (ho : o.isFinite) :
    (if o.gt (.num 0) then s.div o else .num 0).isFinite := by
  cases o with
  | num q =>
    cases s with
    | num a =>
      by_cases h0 : (0 : ℚ) < q
      · have hq : q ≠ 0 := ne_of_gt h0
        simp [JsNum.gt, h0, JsNum.div, hq, JsNum.isFinite]
      · simp [JsNum.gt, h0, JsNum.isFinite]
    | inf s => simp [JsNum.isFinite] at hs
    | nan => simp [JsNum.isFinite] at hs
  | inf s => simp [JsNum.isFinite] at ho
  | nan => simp [JsNum.isFinite] at ho

lemma mem_branchMetrics {B C : List String} {data : List SalesRecord}
    {t : String → Option ℚ} {bm : BranchMetrics} :
    bm ∈ (calculateMetrics B C data t).branchMetrics ↔
      ∃ b ∈ B, branchMetricsOf C data t b = bm := by
  simp [calculateMetrics, List.mem_map]

lemma channelMetricsOf_sales (bd : List SalesRecord) (ch : String) :
    (channelMetricsOf bd ch).sales =
      jsumBy (fun d => d.sales_value.toNumber)
        (bd.filter (fun d => d.channel_name == ch)) := rfl

lemma channelMetricsOf_orders (bd : List SalesRecord) (ch : String) :
    (channelMetricsOf bd ch).orders =
      jsumBy (fun d => d.orders_count.toNumber)
        (bd.filter (fun d => d.channel_name == ch)) := rfl

lemma channelMetricsOf_target (bd : List SalesRecord) (ch : String) :
    (channelMetricsOf bd ch).target =
      jsumBy (fun d => d.target_value.toNumber)
        (bd.filter (fun d => d.channel_name == ch)) := rfl

lemma channelMetricsOf_achievement (bd : List SalesRecord) (ch : String) :
    (channelMetricsOf bd ch).achievementPercentage =
      if (channelMetricsOf bd ch).target.gt (.num 0) then
        ((channelMetricsOf bd ch).sales.div (channelMetricsOf bd ch).target).mul
          (.num 100)
      else .num 0 := rfl

lemma channelMetricsOf_aov (bd : List SalesRecord) (ch : String) :
    (channelMetricsOf bd ch).aov =
      if (channelMetricsOf bd ch).orders.gt (.num 0) then
        (channelMetricsOf bd ch).sales.div (channelMetricsOf bd ch).orders
      else .num 0 := rfl

lemma branchMetricsOf_branchName (C : List String) (data : List SalesRecord)
    (t : String → Option ℚ) (b : String) :
    (branchMetricsOf C data t b).branchName = b := rfl

lemma branchMetricsOf_channels (C : List String) (data : List SalesRecord)
    (t : String → Option ℚ) (b : String) :
    (branchMetricsOf C data t b).channels =
      C.map (channelMetricsOf (data.filter (fun d => d.branch_name == b))) := rfl

lemma branchMetricsOf_totalSales (C : List String) (data : List SalesRecord)
    (t : String → Option ℚ) (b : String) :
    (branchMetricsOf C data t b).totalSales =
      jsumBy (fun c => c.sales) (branchMetricsOf C data t b).channels := rfl

lemma branchMetricsOf_totalOrders (C : List String) (data : List SalesRecord)
    (t : String → Option ℚ) (b : String) :
    (branchMetricsOf C data t b).totalOrders =
      jsumBy (fun c => c.orders) (branchMetricsOf C data t b).channels := rfl

lemma branchMetricsOf_totalTarget (C : List String) (data : List SalesRecord)
    (t : String → Option ℚ) (b : String) :
    (branchMetricsOf C data t b).totalTarget =
      match t b with
      | some v => JsNum.num v
      | none => jsumBy (fun c => c.target) (branchMetricsOf C data t b).channels :=
  rfl

lemma branchMetricsOf_achievement (C : List String) (data : List SalesRecord)
    (t : String → Option ℚ) (b : String) :
    (branchMetricsOf C data t b).achievementPercentage =
      if (branchMetricsOf C data t b).totalTarget.gt (.num 0) then
        ((branchMetricsOf C data t b).totalSales.div
          (branchMetricsOf C data t b).totalTarget).mul (.num 100)
      else .num 0 := rfl

lemma branchMetricsOf_aov (C : List String) (data : List SalesRecord)
    (t : String → Option ℚ) (b : String) :
    (branchMetricsOf C data t b).aov =
      if (branchMetricsOf C data t b).totalOrders.gt (.num 0) then
        (branchMetricsOf C data t b).totalSales.div
          (branchMetricsOf C data t b).totalOrders
      else .num 0 := rfl

lemma mem_channels {C : List String} {data : List SalesRecord}
    {t : String → Option ℚ} {b : String} {c : ChannelMetrics} :
    c ∈ (branchMetricsOf C data t b).channels ↔
      ∃ ch ∈ C,
        channelMetricsOf (data.filter (fun d => d.branch_name == b)) ch = c := by
  rw [branchMetricsOf_channels]
  simp [List.mem_map]

lemma gt_zero_zero : JsNum.gt (.num 0) (.num 0) = false := by decide

lemma calculateMetrics_branchMetrics (B C : List String)
    (data : List SalesRecord) (t : String → Option ℚ) :
    (calculateMetrics B C data t).branchMetrics =
      B.map (branchMetricsOf C data t) := rfl

lemma calculateMetrics_totalSales (B C : List String)
    (data : List SalesRecord) (t : String → Option ℚ) :
    (calculateMetrics B C data t).totalSales =
      jsumBy (fun b => b.totalSales)
        (calculateMetrics B C data t).branchMetrics := rfl

lemma calculateMetrics_totalOrders (B C : List String)
    (data : List SalesRecord) (t : String → Option ℚ) :
    (calculateMetrics B C data t).totalOrders =
      jsumBy (fun b => b.totalOrders)
        (calculateMetrics B C data t).branchMetrics := rfl

lemma calculateMetrics_totalTarget (B C : List String)
    (data : List SalesRecord) (t : String → Option ℚ) :
    (calculateMetrics B C data t).totalTarget =
      jsumBy (fun b => b.totalTarget)
        (calculateMetrics B C data t).branchMetrics := rfl

lemma calculateMetrics_overallAchievement (B C : List String)
    (data : List SalesRecord) (t : String → Option ℚ) :
    (calculateMetrics B C data t).overallAchievement =
      if (calculateMetrics B C data t).totalTarget.gt (.num 0) then
        ((calculateMetrics B C data t).totalSales.div
          (calculateMetrics B C data t).totalTarget).mul (.num 100)
      else .num 0 := rfl

lemma calculateMetrics_overallAov (B C : List String)
    (data : List SalesRecord) (t : String → Option ℚ) :
    (calculateMetrics B C data t).overallAov =
      if (calculateMetrics B C data t).totalOrders.gt (.num 0) then
        (calculateMetrics B C data t).totalSales.div
          (calculateMetrics B C data t).totalOrders
      else .num 0 := rfl

lemma Val.toNumber_isFinite {v : Val} (hv : v.good = true) :
    v.toNumber.isFinite = true := by
  cases v <;> simp_all [Val.good, Val.toNumber, JsNum.isFinite]

/-- A record collection whose numeric fields all coerce to finite
numbers (numbers, numeric strings, or `null`). -/
def goodData (data : List SalesRecord) : Prop :=
  ∀ r ∈ data, r.sales_value.good = true ∧ r.orders_count.good = true ∧
    r.target_value.good = true

lemma channelMetricsOf_allFinite {bd : List SalesRecord} (h : goodData bd)
    (ch : String) : (channelMetricsOf bd ch).allFinite = true := by
  have hmem : ∀ r ∈ bd.filter (fun d => d.channel_name == ch), r ∈ bd :=
    fun r hr => List.mem_of_mem_filter hr
  have hs : (channelMetricsOf bd ch).sales.isFinite := by
    rw [channelMetricsOf_sales]
    exact jsumBy_isFinite
      (fun a ha => Val.toNumber_isFinite (h a (hmem a ha)).1)
  have ho : (channelMetricsOf bd ch).orders.isFinite := by
    rw [channelMetricsOf_orders]
    exact jsumBy_isFinite
      (fun a ha => Val.toNumber_isFinite (h a (hmem a ha)).2.1)
  have ht : (channelMetricsOf bd ch).target.isFinite := by
    rw [channelMetricsOf_target]
    exact jsumBy_isFinite
      (fun a ha => Val.toNumber_isFinite (h a (hmem a ha)).2.2)
  have hach : (channelMetricsOf bd ch).achievementPercentage.isFinite := by
    rw [channelMetricsOf_achievement]
    exact achievement_isFinite hs ht
  have haov : (channelMetricsOf bd ch).aov.isFinite := by
    rw [channelMetricsOf_aov]
    exact aov_isFinite hs ho
  simp [ChannelMetrics.allFinite, hs, ho, ht, hach, haov]

lemma branchMetricsOf_allFinite {C : List String} {data : List SalesRecord}
    {t : String → Option ℚ} {b : String} (h : goodData data) :
    (branchMetricsOf C data t b).allFinite = true := by
  have hdata : goodData (data.filter (fun d => d.branch_name == b)) :=
    fun r hr => h r (List.mem_of_mem_filter hr)
  have hch : ∀ c ∈ (branchMetricsOf C data t b).channels, c.allFinite = true := by
    intro c hc
    obtain ⟨ch, _, rfl⟩ := mem_channels.mp hc
    exact channelMetricsOf_allFinite hdata ch
  have hch' : ∀ c ∈ (branchMetricsOf C data t b).channels,
      c.sales.isFinite ∧ c.orders.isFinite ∧ c.target.isFinite := by
    intro c hc
    have := hch c hc
    simp only [ChannelMetrics.allFinite, Bool.and_eq_true] at this
    obtain ⟨⟨⟨⟨h1, h2⟩, h3⟩, -⟩, -⟩ := this
    exact ⟨h1, h2, h3⟩
  have hTS : (branchMetricsOf C data t b).totalSales.isFinite := by
    rw [branchMetricsOf_totalSales]
    exact jsumBy_isFinite (fun c hc => (hch' c hc).1)
  have hTO : (branchMetricsOf C data t b).totalOrders.isFinite := by
    rw [branchMetricsOf_totalOrders]
    exact jsumBy_isFinite (fun c hc => (hch' c hc).2.1)
  have hTT : (branchMetricsOf C data t b).totalTarget.isFinite := by
    rw [branchMetricsOf_totalTarget]
    rcases htb : t b with _ | v
    · simp only [htb]
      exact jsumBy_isFinite (fun c hc => (hch' c hc).2.2)
    · simp [htb, JsNum.isFinite]
  have hach : (branchMetricsOf C data t b).achievementPercentage.isFinite := by
    rw [branchMetricsOf_achievement]
    exact achievement_isFinite hTS hTT
  have haov : (branchMetricsOf C data t b).aov.isFinite := by
    rw [branchMetricsOf_aov]
    exact aov_isFinite hTS hTO
  simp only [BranchMetrics.allFinite, Bool.and_eq_true, List.all_eq_true]
  exact ⟨⟨⟨⟨⟨hTS, hTO⟩, hTT⟩, hach⟩, haov⟩, hch⟩

/-- C1: for every target-override mapping (and any filter state),
aggregating the empty record collection yields an absent (`none`)
summary, not a zeroed structure, and filtering the empty collection
yields the empty sequence. -/
theorem summary_empty_input (BRANCHES CHANNELS : List String)
    (filters : DashboardFilterState) (targetsMap : String → Option ℚ) :
    summary BRANCHES CHANNELS [] filters targetsMap = none ∧
      filteredData [] filters = [] :=
  ⟨rfl, rfl⟩

/-- C7: applying two filter states sequentially equals a single pass
with the conjunction of the two filter predicates, for every record
sequence and every pair of filter states. -/
theorem filter_sequential_eq_conjunction (l : List SalesRecord)
    (f1 f2 : DashboardFilterState) :
    filteredData (filteredData l f1) f2 =
      l.filter (fun r => filterPred f1 r && filterPred f2 r) := by
  simp only [filteredData, List.filter_filter]
  exact List.filter_congr (fun a _ => by rw [Bool.and_comm])

/-- C8: the channel-level metrics (and the branch names pairing them)
are identical under any two override mappings: an override affects only
branch and overall roll-ups, never channel metrics. -/
theorem override_frame (B C : List String) (data : List SalesRecord)
    (t1 t2 : String → Option ℚ) :
    (calculateMetrics B C data t1).branchMetrics.map (fun b => b.branchName) =
      (calculateMetrics B C data t2).branchMetrics.map (fun b => b.branchName) ∧
    (calculateMetrics B C data t1).branchMetrics.map (fun b => b.channels) =
      (calculateMetrics B C data t2).branchMetrics.map (fun b => b.channels) := by
  constructor
  · simp only [calculateMetrics, List.map_map]
    rw [show ((fun b : BranchMetrics => b.branchName) ∘ branchMetricsOf C data t1) =
      ((fun b : BranchMetrics => b.branchName) ∘ branchMetricsOf C data t2) from
      funext fun b => rfl]
  · simp only [calculateMetrics, List.map_map]
    rw [show ((fun b : BranchMetrics => b.channels) ∘ branchMetricsOf C data t1) =
      ((fun b : BranchMetrics => b.channels) ∘ branchMetricsOf C data t2) from
      funext fun b => rfl]

/-- C9: the aggregation is a pure, deterministic function of its two
inputs: two invocations on equal record sequences and equal override
mappings yield identical summaries (the embedding has no state,
randomness, or I/O to depend on). -/
theorem calculateMetrics_deterministic (B C : List String)
    (d1 d2 : List SalesRecord) (t1 t2 : String → Option ℚ)
    (hd : d1 = d2) (ht : t1 = t2) :
    calculateMetrics B C d1 t1 = calculateMetrics B C d2 t2 := by
  subst hd; subst ht; rfl

/-- Witness for C9 at a concrete input. -/
theorem calculateMetrics_deterministic_witness :
    calculateMetrics ["A"] ["X"] [recA_X] noOverrides =
      calculateMetrics ["A"] ["X"] [recA_X] noOverrides :=
  calculateMetrics_deterministic ["A"] ["X"] [recA_X] [recA_X]
    noOverrides noOverrides rfl rfl

/-- C3: a branch whose name has an entry in the override mapping gets
that value as `totalTarget`; otherwise `totalTarget` is the sum of the
branch's channel targets. -/
theorem branch_totalTarget_override (B C : List String)
    (data : List SalesRecord) (t : String → Option ℚ) (bm : BranchMetrics)
    (hbm : bm ∈ (calculateMetrics B C data t).branchMetrics) :
    (∀ x : ℚ, t bm.branchName = some x → bm.totalTarget = .num x) ∧
    (t bm.branchName = none →
      bm.totalTarget = jsumBy (fun c => c.target) bm.channels) := by
  obtain ⟨b, hb, rfl⟩ := mem_branchMetrics.mp hbm
  rw [branchMetricsOf_branchName]
  constructor
  · intro x hx
    rw [branchMetricsOf_totalTarget, hx]
  · intro hx
    rw [branchMetricsOf_totalTarget, hx]

/-- Witness for C3: override `1000` for branch `A` wins over the
channel-derived target sum `50`. -/
theorem branch_totalTarget_override_witness :
    overrideA "A" = some 1000 ∧
    (branchMetricsOf ["X", "Y"] [recA_X, recA_Y] overrideA "A").totalTarget =
      JsNum.num 1000 ∧
    jsumBy (fun c => c.target)
      (branchMetricsOf ["X", "Y"] [recA_X, recA_Y] overrideA "A").channels =
      JsNum.num 50 := by
  refine ⟨rfl, ?_, by
    simp only [branchMetricsOf, channelMetricsOf, jsumBy, recA_X, recA_Y,
      Val.toNumber, List.filter, List.map, List.foldl, JsNum.add]
    norm_num⟩
  have h := branch_totalTarget_override ["A"] ["X", "Y"] [recA_X, recA_Y]
    overrideA (branchMetricsOf ["X", "Y"] [recA_X, recA_Y] overrideA "A")
    (mem_branchMetrics.mpr ⟨"A", by simp, rfl⟩)
  exact h.1 1000 rfl

/-- C4: with no overrides, every total is exactly the sum of its
children's totals: the overall totals are the sums of the branch
totals, and each branch's totals are the sums of its channels'. -/
theorem sum_invariant (B C : List String) (data : List SalesRecord)
    (t : String → Option ℚ) (h : ∀ b, t b = none) :
    ((calculateMetrics B C data t).totalSales =
        jsumBy (fun b => b.totalSales)
          (calculateMetrics B C data t).branchMetrics ∧
      (calculateMetrics B C data t).totalOrders =
        jsumBy (fun b => b.totalOrders)
          (calculateMetrics B C data t).branchMetrics ∧
      (calculateMetrics B C data t).totalTarget =
        jsumBy (fun b => b.totalTarget)
          (calculateMetrics B C data t).branchMetrics) ∧
    ∀ bm ∈ (calculateMetrics B C data t).branchMetrics,
      bm.totalSales = jsumBy (fun c => c.sales) bm.channels ∧
      bm.totalOrders = jsumBy (fun c => c.orders) bm.channels ∧
      bm.totalTarget = jsumBy (fun c => c.target) bm.channels := by
  refine ⟨⟨rfl, rfl, rfl⟩, ?_⟩
  intro bm hbm
  obtain ⟨b, hb, rfl⟩ := mem_branchMetrics.mp hbm
  refine ⟨branchMetricsOf_totalSales C data t b,
    branchMetricsOf_totalOrders C data t b, ?_⟩
  rw [branchMetricsOf_totalTarget, h b]

/-- Witness for C4 on the walk-through scenario with no overrides. -/
theorem sum_invariant_witness :
    (calculateMetrics ["A"] ["X", "Y"] [recA_X, recA_Y] noOverrides).totalSales =
      jsumBy (fun b => b.totalSales)
        (calculateMetrics ["A"] ["X", "Y"] [recA_X, recA_Y]
          noOverrides).branchMetrics :=
  (sum_invariant ["A"] ["X", "Y"] [recA_X, recA_Y] noOverrides
    (fun _ => rfl)).1.1

/-- C6: at channel, branch, and overall levels, the achievement
percentage is `sales/target*100` exactly when `target > 0` and `0`
otherwise, and `aov` is `sales/orders` exactly when `orders > 0` and
`0` otherwise; in particular a zero target or zero orders sum yields
`0`, so no division by zero occurs. -/
theorem zero_guards (B C : List String) (data : List SalesRecord)
    (t : String → Option ℚ) :
    ((calculateMetrics B C data t).overallAchievement =
        if (calculateMetrics B C data t).totalTarget.gt (.num 0) then
          ((calculateMetrics B C data t).totalSales.div
            (calculateMetrics B C data t).totalTarget).mul (.num 100)
        else .num 0) ∧
    ((calculateMetrics B C data t).overallAov =
        if (calculateMetrics B C data t).totalOrders.gt (.num 0) then
          (calculateMetrics B C data t).totalSales.div
            (calculateMetrics B C data t).totalOrders
        else .num 0) ∧
    ((calculateMetrics B C data t).totalTarget = .num 0 →
      (calculateMetrics B C data t).overallAchievement = .num 0) ∧
    ((calculateMetrics B C data t).totalOrders = .num 0 →
      (calculateMetrics B C data t).overallAov = .num 0) ∧
    ∀ bm ∈ (calculateMetrics B C data t).branchMetrics,
      (bm.achievementPercentage =
        if bm.totalTarget.gt (.num 0) then
          (bm.totalSales.div bm.totalTarget).mul (.num 100)
        else .num 0) ∧
      (bm.aov =
        if bm.totalOrders.gt (.num 0) then bm.totalSales.div bm.totalOrders
        else .num 0) ∧
      (bm.totalTarget = .num 0 → bm.achievementPercentage = .num 0) ∧
      (bm.totalOrders = .num 0 → bm.aov = .num 0) ∧
      ∀ c ∈ bm.channels,
        (c.achievementPercentage =
          if c.target.gt (.num 0) then (c.sales.div c.target).mul (.num 100)
          else .num 0) ∧
        (c.aov =
          if c.orders.gt (.num 0) then c.sales.div c.orders else .num 0) ∧
        (c.target = .num 0 → c.achievementPercentage = .num 0) ∧
        (c.orders = .num 0 → c.aov = .num 0) := by
  refine ⟨rfl, rfl, ?_, ?_, ?_⟩
  · intro h0
    show (if (calculateMetrics B C data t).totalTarget.gt (.num 0) then _
      else _) = JsNum.num 0
    rw [h0, gt_zero_zero, if_neg (by simp)]
  · intro h0
    show (if (calculateMetrics B C data t).totalOrders.gt (.num 0) then _
      else _) = JsNum.num 0
    rw [h0, gt_zero_zero, if_neg (by simp)]
  · intro bm hbm
    obtain ⟨b, hb, rfl⟩ := mem_branchMetrics.mp hbm
    refine ⟨branchMetricsOf_achievement C data t b,
      branchMetricsOf_aov C data t b, ?_, ?_, ?_⟩
    · intro h0
      rw [branchMetricsOf_achievement, h0, gt_zero_zero, if_neg (by simp)]
    · intro h0
      rw [branchMetricsOf_aov, h0, gt_zero_zero, if_neg (by simp)]
    · intro c hc
      obtain ⟨ch, hch, rfl⟩ := mem_channels.mp hc
      refine ⟨channelMetricsOf_achievement _ ch,
        channelMetricsOf_aov _ ch, ?_, ?_⟩
      · intro h0
        rw [channelMetricsOf_achievement, h0, gt_zero_zero, if_neg (by simp)]
      · intro h0
        rw [channelMetricsOf_aov, h0, gt_zero_zero, if_neg (by simp)]

/-- Witness for C6: channel `Y` of the walk-through scenario has target
`0` and achievement `0`. -/
theorem zero_guards_witness :
    (channelMetricsOf
        ([recA_X, recA_Y].filter (fun d => d.branch_name == "A")) "Y").target =
      JsNum.num 0 ∧
    (channelMetricsOf
        ([recA_X, recA_Y].filter (fun d => d.branch_name == "A"))
        "Y").achievementPercentage = JsNum.num 0 := by
  have htarget :
      (channelMetricsOf
        ([recA_X, recA_Y].filter (fun d => d.branch_name == "A")) "Y").target =
        JsNum.num 0 := by
    simp only [channelMetricsOf, jsumBy, recA_X, recA_Y,
      Val.toNumber, List.filter, List.map, List.foldl, JsNum.add]
    norm_num
  refine ⟨htarget, ?_⟩
  have h := zero_guards ["A"] ["X", "Y"] [recA_X, recA_Y] noOverrides
  have hb := h.2.2.2.2
    (branchMetricsOf ["X", "Y"] [recA_X, recA_Y] noOverrides "A")
    (mem_branchMetrics.mpr ⟨"A", by simp, rfl⟩)
  have hc := hb.2.2.2.2
    (channelMetricsOf
      ([recA_X, recA_Y].filter (fun d => d.branch_name == "A")) "Y")
    (mem_channels.mpr ⟨"Y", by simp, rfl⟩)
  exact hc.2.2.1 htarget

/-- Counterexample to C2 as stated: a record whose `sales_value` is
missing / non-numeric coerces to `NaN` (not `0`), and the `NaN`
propagates into the summary's totals. -/
theorem calculateMetrics_nan_of_bad_field :
    (calculateMetrics ["A"] ["X"] [recBadSales] noOverrides).totalSales =
      JsNum.nan ∧
    (calculateMetrics ["A"] ["X"] [recBadSales] noOverrides).allFinite =
      false :=
  ⟨rfl, rfl⟩

/-- C2 (amended): aggregation is a total function (never throws), and
whenever every record's numeric fields are numbers, numeric strings, or
`null`, no `NaN` or `Infinity` appears anywhere in the summary; a
missing or non-numeric field, however, coerces to `NaN` and propagates
into the affected sums. -/
theorem calculateMetrics_no_nan_of_good_fields (B C : List String)
    (data : List SalesRecord) (t : String → Option ℚ) (h : goodData data) :
    (calculateMetrics B C data t).allFinite = true := by
  have hbm : ∀ bm ∈ (calculateMetrics B C data t).branchMetrics,
      bm.allFinite = true := by
    intro bm hbm'
    obtain ⟨b, _, rfl⟩ := mem_branchMetrics.mp hbm'
    exact branchMetricsOf_allFinite h
  have hbm' : ∀ bm ∈ (calculateMetrics B C data t).branchMetrics,
      bm.totalSales.isFinite ∧ bm.totalOrders.isFinite ∧
        bm.totalTarget.isFinite := by
    intro bm hb
    have := hbm bm hb
    simp only [BranchMetrics.allFinite, Bool.and_eq_true] at this
    obtain ⟨⟨⟨⟨⟨h1, h2⟩, h3⟩, -⟩, -⟩, -⟩ := this
    exact ⟨h1, h2, h3⟩
  have hTS : (calculateMetrics B C data t).totalSales.isFinite := by
    rw [calculateMetrics_totalSales]
    exact jsumBy_isFinite (fun bm hb => (hbm' bm hb).1)
  have hTO : (calculateMetrics B C data t).totalOrders.isFinite := by
    rw [calculateMetrics_totalOrders]
    exact jsumBy_isFinite (fun bm hb => (hbm' bm hb).2.1)
  have hTT : (calculateMetrics B C data t).totalTarget.isFinite := by
    rw [calculateMetrics_totalTarget]
    exact jsumBy_isFinite (fun bm hb => (hbm' bm hb).2.2)
  have hach : (calculateMetrics B C data t).overallAchievement.isFinite := by
    rw [calculateMetrics_overallAchievement]
    exact achievement_isFinite hTS hTT
  have haov : (calculateMetrics B C data t).overallAov.isFinite := by
    rw [calculateMetrics_overallAov]
    exact aov_isFinite hTS hTO
  simp only [DashboardSummary.allFinite, Bool.and_eq_true, List.all_eq_true]
  exact ⟨⟨⟨⟨⟨hTS, hTO⟩, hTT⟩, hach⟩, haov⟩, hbm⟩

/-- Witness for C2 (amended) on the walk-through scenario. -/
theorem calculateMetrics_no_nan_witness :
    (calculateMetrics ["A"] ["X", "Y"] [recA_X, recA_Y]
      noOverrides).allFinite = true :=
  calculateMetrics_no_nan_of_good_fields ["A"] ["X", "Y"] [recA_X, recA_Y]
    noOverrides (by intro r hr; fin_cases hr <;> exact ⟨rfl, rfl, rfl⟩)

/-- Counterexample to C5 as stated: a record with a non-empty but
unparsable date string is not excluded when no filter is active. -/
theorem filter_keeps_unparsable_date :
    filteredData [recBadDate] emptyFilters = [recBadDate] := rfl

/-- C5 (amended): a record with a missing (or empty) date is excluded
no matter which filters are active; a record with a non-empty but
unparsable date string is excluded whenever a date-range filter (with a
start bound) or a day-of-week filter is active, but is not
unconditionally excluded. -/
theorem filter_date_exclusions (f : DashboardFilterState) (r : SalesRecord) :
    (r.date = none → filterPred f r = false) ∧
    (∀ ds, r.date = some ds → ds.isEmpty = true → filterPred f r = false) ∧
    (∀ ds dr, r.date = some ds → recordTime ds = none →
      f.dateRange = some dr → dr.dFrom ≠ none → filterPred f r = false) ∧
    (∀ ds, r.date = some ds → recordTime ds = none → f.daysOfWeek ≠ [] →
      filterPred f r = false) := by
  refine ⟨?_, ?_, ?_, ?_⟩
  · intro h
    simp [filterPred, h]
  · intro ds h he
    simp [filterPred, h, he]
  · intro ds dr h hrt hdr hfrom
    simp only [filterPred, h]
    by_cases he : ds.isEmpty
    · simp [he]
    · have hdrp : dateRangePass f ds = false := by
        rcases hfs : dr.dFrom with _ | s
        · exact absurd hfs hfrom
        · simp [dateRangePass, hdr, hfs, isWithinInterval, hrt]
      simp [he, hdrp]
  · intro ds h hrt hdow
    simp only [filterPred, h]
    by_cases he : ds.isEmpty
    · simp [he]
    · have hdp : dowPass f ds = false := by
        have hlen : f.daysOfWeek.length > 0 := List.length_pos.mpr hdow
        simp [dowPass, hlen, hrt]
      simp [he, hdp]

/-- Witness for C5 (amended): an unparsable date is rejected once a
day-of-week filter is active. -/
theorem filter_date_exclusions_witness :
    filterPred
      { dateRange := none, selectedMonth := none, branches := [],
        channels := [], daysOfWeek := [1] } recBadDate = false :=
  (filter_date_exclusions _ recBadDate).2.2.2 "bad-date" rfl rfl
    (by simp)

/-- Counterexample to C10 as stated: with an override in force, the
summary produced when the filters exclude every record is present but
not fully zeroed — the overridden branch keeps its override target. -/
theorem summary_not_fully_zeroed_with_override :
    filterPred
      { dateRange := none, selectedMonth := some "2025-01", branches := [],
        channels := [], daysOfWeek := [] } recA_X = false ∧
    summary ["A"] ["X"] [recA_X]
      { dateRange := none, selectedMonth := some "2025-01", branches := [],
        channels := [], daysOfWeek := [] } overrideA =
      some (calculateMetrics ["A"] ["X"] [] overrideA) ∧
    (calculateMetrics ["A"] ["X"] [] overrideA).branchMetrics.map
        (fun b => b.totalTarget) = [JsNum.num 1000] :=
  ⟨rfl, rfl, rfl⟩

lemma channelMetricsOf_nil_fields (bd : List SalesRecord) (hbd : bd = [])
    (ch : String) :
    (channelMetricsOf bd ch).sales = .num 0 ∧
    (channelMetricsOf bd ch).orders = .num 0 ∧
    (channelMetricsOf bd ch).target = .num 0 := by
  subst hbd
  exact ⟨rfl, rfl, rfl⟩

lemma branchMetricsOf_nil_channel_sums (C : List String)
    (t : String → Option ℚ) (b : String) :
    jsumBy (fun c => c.sales) (branchMetricsOf C [] t b).channels = .num 0 ∧
    jsumBy (fun c => c.orders) (branchMetricsOf C [] t b).channels = .num 0 ∧
    jsumBy (fun c => c.target) (branchMetricsOf C [] t b).channels = .num 0 := by
  refine ⟨jsumBy_eq_zero ?_, jsumBy_eq_zero ?_, jsumBy_eq_zero ?_⟩ <;>
    · intro c hc
      obtain ⟨ch, _, rfl⟩ := mem_channels.mp hc
      rfl

/-- C10: the null-versus-present decision is made on the raw record
collection: when the raw collection is non-empty but the filters
exclude every record, the summary is present and is the aggregation of
the empty list — every enumerated branch and channel appears with zero
sales, orders, and (absent an override) target. -/
theorem summary_zeroed_when_filters_exclude_all (B C : List String)
    (sd : List SalesRecord) (f : DashboardFilterState)
    (t : String → Option ℚ) (hne : sd ≠ [])
    (hex : ∀ r ∈ sd, filterPred f r = false) :
    summary B C sd f t = some (calculateMetrics B C [] t) ∧
    (calculateMetrics B C [] t).branchMetrics.map (fun b => b.branchName) = B ∧
    (calculateMetrics B C [] t).totalSales = .num 0 ∧
    (calculateMetrics B C [] t).totalOrders = .num 0 ∧
    ∀ bm ∈ (calculateMetrics B C [] t).branchMetrics,
      bm.channels.map (fun c => c.channelName) = C ∧
      bm.totalSales = .num 0 ∧ bm.totalOrders = .num 0 ∧
      (t bm.branchName = none → bm.totalTarget = .num 0) ∧
      ∀ c ∈ bm.channels,
        c.sales = .num 0 ∧ c.orders = .num 0 ∧ c.target = .num 0 := by
  have hbranch : ∀ b, (branchMetricsOf C [] t b).totalSales = .num 0 ∧
      (branchMetricsOf C [] t b).totalOrders = .num 0 := by
    intro b
    constructor
    · rw [branchMetricsOf_totalSales]
      exact (branchMetricsOf_nil_channel_sums C t b).1
    · rw [branchMetricsOf_totalOrders]
      exact (branchMetricsOf_nil_channel_sums C t b).2.1
  refine ⟨?_, ?_, ?_, ?_, ?_⟩
  · have hfil : filteredData sd f = [] :=
      List.filter_eq_nil_iff.mpr (fun a ha => by simp [hex a ha])
    have hlen : ¬(sd.length = 0) := by
      simpa [List.length_eq_zero] using hne
    rw [summary, if_neg hlen, hfil]
  · rw [calculateMetrics_branchMetrics, List.map_map,
      show ((fun b : BranchMetrics => b.branchName) ∘
        branchMetricsOf C [] t) = id from funext fun b => rfl, List.map_id]
  · rw [calculateMetrics_totalSales]
    exact jsumBy_eq_zero (fun bm hb => by
      obtain ⟨b, _, rfl⟩ := mem_branchMetrics.mp hb
      exact (hbranch b).1)
  · rw [calculateMetrics_totalOrders]
    exact jsumBy_eq_zero (fun bm hb => by
      obtain ⟨b, _, rfl⟩ := mem_branchMetrics.mp hb
      exact (hbranch b).2)
  · intro bm hb
    obtain ⟨b, _, rfl⟩ := mem_branchMetrics.mp hb
    refine ⟨?_, (hbranch b).1, (hbranch b).2, ?_, ?_⟩
    · rw [branchMetricsOf_channels, List.map_map,
        show ((fun c : ChannelMetrics => c.channelName) ∘
          channelMetricsOf (([] : List SalesRecord).filter
            (fun d => d.branch_name == b))) = id from funext fun ch => rfl,
        List.map_id]
    · intro ht0
      rw [branchMetricsOf_branchName] at ht0
      rw [branchMetricsOf_totalTarget]
      simp only [ht0]
      exact (branchMetricsOf_nil_channel_sums C t b).2.2
    · intro c hc
      obtain ⟨ch, _, rfl⟩ := mem_channels.mp hc
      exact channelMetricsOf_nil_fields _ rfl ch

/-- Witness for C10: one record, a month filter matching nothing. -/
theorem summary_zeroed_witness :
    summary ["A"] ["X"] [recA_X]
      { dateRange := none, selectedMonth := some "2025-01", branches := [],
        channels := [], daysOfWeek := [] } noOverrides =
      some (calculateMetrics ["A"] ["X"] [] noOverrides) ∧
    (calculateMetrics ["A"] ["X"] [] noOverrides).totalSales =
      JsNum.num 0 := by
  have h := summary_zeroed_when_filters_exclude_all ["A"] ["X"] [recA_X]
    { dateRange := none, selectedMonth := some "2025-01", branches := [],
      channels := [], daysOfWeek := [] } noOverrides (by simp)
    (by intro r hr; fin_cases hr; rfl)
  exact ⟨h.1, h.2.2.1⟩

end SalesDashboard
